import Mathlib

/-
Verification development for the openai-pdf-renamer repository.

This file gives a shallow embedding, in Lean 4, of the core pipeline of the
repository: the filename sanitizer (clean_filename), the collision resolver
(find_unique_pdf_path), the metadata validator (the field reliability check
inside query_llm_for_metadata), the metadata rewrite and rename commit
(update_pdf_metadata and rename_pdf in the current script, and the
temp/backup/move sequence of rename_pdf_based_on_title in version 0.5), and
the per-document orchestration (process_pdf and the loop in main).

Python strings are modelled as List Char.  The filesystem is modelled as a
finite map from path strings to parsed document values: a document is its
list of page contents plus an optional embedded metadata record, so
byte-for-byte equality of files corresponds to equality of PdfDoc values.
Filesystem operations and external collaborators (PDF reading, the LLM
call) may fail; failure is modelled by explicit injection flags or by
Except-valued primitives, matching the try/except structure of the source.
-/

namespace OpenAiPdfRenamer

/-- Whitespace characters removed by the Python str.strip method
(ASCII subset, which is what the repository ever feeds it). -/
def pyIsSpace (c : Char) : Bool :=
  c = ' ' || c = '\t' || c = '\n' || c = '\r' || c = '\x0b' || c = '\x0c'

/-- Drop leading whitespace, as in the left half of str.strip. -/
def lstripWS (l : List Char) : List Char :=
  l.dropWhile pyIsSpace

/-- Drop trailing whitespace, as in the right half of str.strip. -/
def rstripWS (l : List Char) : List Char :=
  (l.reverse.dropWhile pyIsSpace).reverse

/-- Embedding of Python str.strip: drop leading and trailing whitespace. -/
def pyStrip (l : List Char) : List Char :=
  rstripWS (lstripWS l)

/-- Characters removed by the regular expression of clean_filename in
src/openai_pdf_renamer.py line 155.  The escaped slash in the character
class is a forward slash, so the backslash character itself is kept. -/
def illegalChar (c : Char) : Bool :=
  c = '/' || c = ':' || c = '*' || c = '?' || c = '"' || c = '<' || c = '>' || c = '|'

/-- Embedding of clean_filename (src/openai_pdf_renamer.py lines 148-157):
remove the forbidden characters, truncate to max_length code points, then
strip surrounding whitespace. -/
def clean_filename (raw : List Char) (max_length : Nat) : List Char :=
  pyStrip ((raw.filter fun c => !illegalChar c).take max_length)

/-- Embedding of Python str.isdigit on the ASCII strings the pipeline
handles: nonempty and all decimal digits.  Python returns False on the
empty string. -/
def pyIsDigit (s : List Char) : Bool :=
  !s.isEmpty && s.all fun c => '0' ≤ c && c ≤ '9'

/-- Embedding of Python str.lower (ASCII letters). -/
def pyLower (l : List Char) : List Char :=
  l.map Char.toLower

/-- Embedded PDF metadata record written by PyPDF2 add_metadata. -/
structure PdfMeta where
  title : List Char
  author : List Char
  creationDate : List Char
deriving DecidableEq, Repr

/-- A document on disk: its page contents plus the optional embedded
metadata record.  Equality of PdfDoc values models byte-for-byte equality
of the files. -/
structure PdfDoc where
  pages : List (List Char)
  meta : Option PdfMeta
deriving DecidableEq, Repr

/-- The filesystem: a map from path strings to documents. -/
def FS : Type := String → Option PdfDoc

/-- Writing a file (open for write then writer.write). -/
def fsWrite (fs : FS) (p : String) (d : PdfDoc) : FS :=
  fun q => if q = p then some d else fs q

/-- Renaming or replacing a file: the destination receives the source
content, the source disappears.  Models os.rename and Path.replace. -/
def fsRename (fs : FS) (src dst : String) : FS :=
  fun q => if q = dst then fs src else if q = src then none else fs q

/-- Removing a file, as in os.remove. -/
def fsRemove (fs : FS) (p : String) : FS :=
  fun q => if q = p then none else fs q

/-- The creation date string built at src/openai_pdf_renamer.py lines
186-190: the pubdate itself when it is all digits, otherwise the current
year, wrapped in the PDF date format. -/
def creationDateFor (pubdate nowYear : List Char) : List Char :=
  "D:".toList ++ (if pyIsDigit pubdate then pubdate else nowYear) ++ "0101000000Z".toList

/-- The transformed in-memory copy produced by update_pdf_metadata: same
pages, embedded metadata replaced. -/
def rewritten (doc : PdfDoc) (title author pubdate nowYear : List Char) : PdfDoc :=
  { pages := doc.pages
    meta := some { title := title, author := author, creationDate := creationDateFor pubdate nowYear } }

/-- Failure injection points for update_pdf_metadata: the PdfReader and
page copy, the temporary file write, and the final Path.replace.  A raise
at any of these is caught by the except clause of the function. -/
structure UpdateInj where
  failRead : Bool
  failWrite : Bool
  failReplace : Bool
deriving Repr

/-- No injected failure. -/
def noFail : UpdateInj := ⟨false, false, false⟩

/-- Embedding of update_pdf_metadata (src/openai_pdf_renamer.py lines
174-200).  The function reads the source, builds the transformed copy in
memory, writes it to the temporary path, then atomically replaces the
source with the temporary.  Any exception is caught and reported as a
False result; a failed write is modelled as leaving no file behind, and a
failed replace leaves the already-written temporary in place. -/
def update_pdf_metadata (fs : FS) (src temp : String)
    (title author pubdate nowYear : List Char) (inj : UpdateInj) : FS × Bool :=
  match fs src with
  | none => (fs, false)
  | some doc =>
    if inj.failRead then (fs, false)
    else if inj.failWrite then (fs, false)
    else
      let fs1 := fsWrite fs temp (rewritten doc title author pubdate nowYear)
      if inj.failReplace then (fs1, false)
      else (fsRename fs1 temp src, true)

/-- The sequence of candidate paths probed by find_unique_pdf_path:
directory slash name dot pdf first, then the underscore-counter variants
with the counter starting at 1. -/
def candidatePath (directory candidate_name : String) : Nat → String
  | 0 => directory ++ "/" ++ candidate_name ++ ".pdf"
  | Nat.succ k => directory ++ "/" ++ candidate_name ++ "_" ++ toString (Nat.succ k) ++ ".pdf"

/-- The while loop of find_unique_pdf_path, probing candidate k, k+1, ...
against the existence oracle, with explicit fuel since the Python loop has
no syntactic bound.  The oracle is consulted anew on every probe. -/
def findUniqueLoop (ex : String → Bool) (cand : Nat → String) : Nat → Nat → Option String
  | 0, _ => none
  | Nat.succ fuel, k =>
    if ex (cand k) then findUniqueLoop ex cand fuel (k + 1)
    else some (cand k)

/-- Embedding of find_unique_pdf_path (src/openai_pdf_renamer.py lines
159-172): probe the candidate names in order and return the first one the
existence check does not find. -/
def find_unique_pdf_path (ex : String → Bool) (directory candidate_name : String)
    (fuel : Nat) : Option String :=
  findUniqueLoop ex (candidatePath directory candidate_name) fuel 0

/-- Embedding of rename_pdf (src/openai_pdf_renamer.py lines 202-216):
resolve a unique destination against the current filesystem, then rename;
an exception in the rename is caught and reported as none, leaving the
filesystem unchanged. -/
def rename_pdf (fs : FS) (pdf_path directory clean_base : String)
    (fuel : Nat) (failRename : Bool) : FS × Option String :=
  match find_unique_pdf_path (fun p => (fs p).isSome) directory clean_base fuel with
  | none => (fs, none)
  | some dest_path =>
    if failRename then (fs, none)
    else (fsRename fs pdf_path dest_path, some dest_path)

/-- Failure injection points for the commit block of
rename_pdf_based_on_title in version 0.5 (src/old code, lines 168-197):
the reader and page copy, the temporary write, the rename of the original
to the backup name, the rename of the temporary to the target, and the
removal of the backup.  The except clause catches a raise at any of them,
prints, and returns the original path with no rollback. -/
structure CommitInj05 where
  failReadCopy : Bool
  failTempWrite : Bool
  failBakRename : Bool
  failFinalMove : Bool
  failBakRemove : Bool
deriving Repr

/-- Embedding of the metadata rewrite and rename block of
rename_pdf_based_on_title in version 0.5: write the transformed copy to
pdf_path plus a temp suffix, move the original aside to the backup name,
move the temporary into the target, then delete the backup.  The result is
the filesystem, the returned path (the target on success, the original
path on any caught exception), and the success flag.  Version 0.5 writes
the raw clean_date string as the creation date. -/
def rename_pdf_based_on_title_commit (fs : FS) (pdf_path temp bak new_file_path : String)
    (clean_title clean_author clean_date : List Char) (inj : CommitInj05) :
    FS × String × Bool :=
  match fs pdf_path with
  | none => (fs, pdf_path, false)
  | some doc =>
    if inj.failReadCopy then (fs, pdf_path, false)
    else if inj.failTempWrite then (fs, pdf_path, false)
    else
      let newDoc : PdfDoc :=
        { pages := doc.pages
          meta := some { title := clean_title, author := clean_author, creationDate := clean_date } }
      let fs1 := fsWrite fs temp newDoc
      if inj.failBakRename then (fs1, pdf_path, false)
      else
        let fs2 := fsRename fs1 pdf_path bak
        if inj.failFinalMove then (fs2, pdf_path, false)
        else
          let fs3 := fsRename fs2 temp new_file_path
          if inj.failBakRemove then (fs3, pdf_path, false)
          else (fsRemove fs3 bak, new_file_path, true)

/-- An opaque Python exception value. -/
inductive PyErr where
  | err
deriving Repr, DecidableEq

/-- JSON values as returned by json.loads: null, booleans, numbers,
strings, arrays and objects. -/
inductive Json where
  | null : Json
  | bool (b : Bool) : Json
  | num (n : Int) : Json
  | str (s : List Char) : Json
  | arr (xs : List Json) : Json
  | obj (fields : List (String × Json)) : Json

/-- Lookup of a key in the field list of a parsed JSON object, first match
wins, as for a Python dict built by json.loads. -/
def lookupField (key : String) : List (String × Json) → Option Json
  | [] => none
  | (k, v) :: rest => if k = key then some v else lookupField key rest

/-- Embedding of the Python expression value.get(key, default): succeeds
on a dict, raises AttributeError on every other value json.loads can
produce. -/
def jsonGet (j : Json) (key : String) (dflt : Json) : Except PyErr Json :=
  match j with
  | Json.obj fields => Except.ok ((lookupField key fields).getD dflt)
  | _ => Except.error PyErr.err

/-- Embedding of the Python expression v.strip().lower(): defined on
strings, raises AttributeError on any other JSON value. -/
def pyStripLower : Json → Except PyErr (List Char)
  | Json.str s => Except.ok (pyLower (pyStrip s))
  | _ => Except.error PyErr.err

/-- Embedding of re.sub applied to a candidate value: succeeds only on a
string, raises TypeError otherwise.  Used where clean_filename receives a
raw metadata field. -/
def asStr : Json → Except PyErr (List Char)
  | Json.str s => Except.ok s
  | _ => Except.error PyErr.err

/-- Rendering of a JSON value inside a Python f-string; total, it never
raises.  Only the string case matters to the theorems below. -/
def pyStr : Json → List Char
  | Json.null => "None".toList
  | Json.bool true => "True".toList
  | Json.bool false => "False".toList
  | Json.num n => (toString n).toList
  | Json.str s => s
  | Json.arr _ => "[list]".toList
  | Json.obj _ => "[dict]".toList

/-- Embedding of the field reliability check of query_llm_for_metadata
(src/openai_pdf_renamer.py lines 135-141): reject, returning None, when
the stripped lower-cased title equals unknown or the stripped lower-cased
author is unknown or various; otherwise return the metadata itself.  Any
attribute access on a malformed value raises, modelled by the error
result, which the retry loop of the caller catches. -/
def field_reliability_check (metadata : Json) : Except PyErr (Option Json) :=
  match jsonGet metadata "title" (Json.str []) with
  | Except.error e => Except.error e
  | Except.ok tJ =>
    match pyStripLower tJ with
    | Except.error e => Except.error e
    | Except.ok tv =>
      if tv = "unknown".toList then Except.ok none
      else
        match jsonGet metadata "author" (Json.str []) with
        | Except.error e => Except.error e
        | Except.ok aJ =>
          match pyStripLower aJ with
          | Except.error e => Except.error e
          | Except.ok av =>
            if av = "unknown".toList ∨ av = "various".toList then Except.ok none
            else Except.ok (some metadata)

/-- The retry loop of query_llm_for_metadata (src/openai_pdf_renamer.py
lines 116-146): attempt i yields either an exception (API error, JSON
parse error, or a raise inside the reliability check), upon which the
loop retries, or a parsed value; a validation rejection returns None
immediately; exhausting the attempts returns None. -/
def queryLoop (attempts : Nat → Except PyErr Json) : Nat → Nat → Option Json
  | _, 0 => none
  | i, Nat.succ fuel =>
    match attempts i with
    | Except.error _ => queryLoop attempts (i + 1) fuel
    | Except.ok md =>
      match field_reliability_check md with
      | Except.error _ => queryLoop attempts (i + 1) fuel
      | Except.ok none => none
      | Except.ok (some m) => some m

/-- Embedding of query_llm_for_metadata: run the retry loop from attempt
zero.  The source default is retries = 2. -/
def query_llm_for_metadata (attempts : Nat → Except PyErr Json) (retries : Nat) : Option Json :=
  queryLoop attempts 0 retries

/-- Embedding of extract_text_from_pdf (src/openai_pdf_renamer.py lines
55-72): the primitive either raises, which the except clause turns into
None, or yields the optional extracted text. -/
def extract_text_from_pdf (prim : Except PyErr (Option (List Char))) : Option (List Char) :=
  match prim with
  | Except.ok t => t
  | Except.error _ => none

/-- Wrapper for the call of update_pdf_metadata from process_pdf, where
pubdate is whatever JSON value the response carried: pubdate.isdigit()
raises inside the try clause on a non-string, which the except clause
turns into a False result with no filesystem change. -/
def update_pdf_metadata_j (fs : FS) (src temp : String) (title author : List Char)
    (pubdate : Json) (nowYear : List Char) (inj : UpdateInj) : FS × Bool :=
  match pubdate with
  | Json.str s => update_pdf_metadata fs src temp title author s nowYear inj
  | _ => (fs, false)

/-- The f-string of src/openai_pdf_renamer.py line 236: author, dash,
title, opening parenthesis, pubdate, closing parenthesis. -/
def base_name_of (author title pubdate : List Char) : List Char :=
  author ++ " - ".toList ++ title ++ " (".toList ++ pubdate ++ ")".toList

/-- The per-document environment: the behaviour of every external
collaborator and every injectable failure for one document. -/
structure Env where
  extractPrim : Except PyErr (Option (List Char))
  llmAttempts : Nat → Except PyErr Json
  retries : Nat
  nowYear : List Char
  uinj : UpdateInj
  failRename : Bool
  fuel : Nat

/-- The reported outcome of one document. -/
inductive Outcome where
  | skippedExtract
  | skippedLLM
  | committed (metadataOk : Bool) (renamed : Option String)
deriving Repr

/-- Embedding of process_pdf (src/openai_pdf_renamer.py lines 218-240).
The result type is Except: an exception not caught inside the called
functions would surface here as an error value, since process_pdf itself
has no try clause.  The metadata field accesses and the re.sub inside
clean_filename are the potentially raising operations; everything after
them is pure, and update_pdf_metadata and rename_pdf catch their own
exceptions.  The update success flag is discarded and the rename runs
unconditionally, as at lines 238-240. -/
def process_pdf (fs : FS) (pdf_path directory temp : String) (env : Env) :
    Except PyErr (FS × Outcome) :=
  match extract_text_from_pdf env.extractPrim with
  | none => Except.ok (fs, Outcome.skippedExtract)
  | some _text =>
    match query_llm_for_metadata env.llmAttempts env.retries with
    | none => Except.ok (fs, Outcome.skippedLLM)
    | some md =>
      match jsonGet md "author" (Json.str "Unknown".toList) with
      | Except.error e => Except.error e
      | Except.ok authorJ =>
      match jsonGet md "title" (Json.str "Unknown".toList) with
      | Except.error e => Except.error e
      | Except.ok titleJ =>
      match jsonGet md "pubdate" (Json.str env.nowYear) with
      | Except.error e => Except.error e
      | Except.ok pubdateJ =>
      match asStr titleJ with
      | Except.error e => Except.error e
      | Except.ok titleS =>
      match asStr authorJ with
      | Except.error e => Except.error e
      | Except.ok authorS =>
        let base_name := base_name_of (pyStr authorJ) (pyStr titleJ) (pyStr pubdateJ)
        let clean_base := clean_filename base_name 128
        let ur := update_pdf_metadata_j fs pdf_path temp
          (clean_filename titleS 128) (clean_filename authorS 128) pubdateJ env.nowYear env.uinj
        let rr := rename_pdf ur.1 pdf_path directory (String.mk clean_base) env.fuel env.failRename
        Except.ok (rr.1, Outcome.committed ur.2 rr.2)

/-- Embedding of the loop in main (src/openai_pdf_renamer.py lines
265-267): process each listed document in order, threading the
filesystem.  The loop body has no exception handler, so an exception
escaping process_pdf would abort the batch, dropping the outcomes of the
remaining documents. -/
def main_loop (envOf : String → Env) (tempOf : String → String) (directory : String) :
    FS → List String → FS × List Outcome
  | fs, [] => (fs, [])
  | fs, d :: rest =>
    match process_pdf fs d directory (tempOf d) (envOf d) with
    | Except.ok (fs1, o) =>
      let r := main_loop envOf tempOf directory fs1 rest
      (r.1, o :: r.2)
    | Except.error _ => (fs, [])

/-- A candidate metadata record with the three expected string fields, in
the shape the spec examples use. -/
def mkRecord (author title pubdate : List Char) : Json :=
  Json.obj [("author", Json.str author), ("title", Json.str title), ("pubdate", Json.str pubdate)]

/-- Concrete fixture: a one-page document. -/
def docA : PdfDoc := { pages := ["alpha".toList], meta := none }

/-- Concrete fixture: a directory holding only docA. -/
def fsA : FS := fun q => if q = "in/a.pdf" then some docA else none

/-- Concrete fixture: a second document. -/
def docB : PdfDoc := { pages := ["bravo".toList], meta := none }

/-- Concrete fixture: an unrelated document occupying a target name. -/
def docB2 : PdfDoc := { pages := ["occupant".toList], meta := none }

/-- Concrete fixture: a directory where the resolved destination has been
taken by a concurrent writer before the final move. -/
def fsB : FS := fun q =>
  if q = "lib/b.pdf" then some docB
  else if q = "lib/B - Report (2019).pdf" then some docB2
  else none

/-- Concrete fixture: a third document. -/
def docC : PdfDoc := { pages := ["charlie".toList], meta := none }

/-- Concrete fixture: a directory holding only docC. -/
def fsC : FS := fun q => if q = "c.pdf" then some docC else none

/-- Concrete fixture: a fourth document. -/
def docD : PdfDoc := { pages := ["delta".toList], meta := none }

/-- Concrete fixture: a directory holding only docD. -/
def fsD : FS := fun q => if q = "d.pdf" then some docD else none

/-- Concrete fixture: a fifth document. -/
def docE : PdfDoc := { pages := ["echo".toList], meta := none }

/-- Concrete fixture: a directory holding only docE. -/
def fsE : FS := fun q => if q = "dir/e.pdf" then some docE else none

/-- Concrete existence oracle for the collision resolver witness: the
base name and its first numbered variant are taken. -/
def exW : String → Bool := fun s => s = "d/doc.pdf" || s = "d/doc_1.pdf"

/-- Modelled from the claim wording of C9: a creation date string of the
form D: followed by a four-digit year followed by 0101000000Z.  This
definition follows the claim, not the source, and is compared against
what the source actually embeds. -/
def claimedFourDigitCreationDate (d : List Char) : Bool :=
  d.length = 17 && d.take 2 = "D:".toList
    && ((d.drop 2).take 4).all (fun c => '0' ≤ c && c ≤ '9')
    && d.drop 6 = "0101000000Z".toList

theorem dropWhile_idem (p : α → Bool) (l : List α) :
    (l.dropWhile p).dropWhile p = l.dropWhile p := by
  induction l with
  | nil => simp
  | cons a t ih =>
    cases hpa : p a with
    | true => simpa [List.dropWhile_cons, hpa] using ih
    | false => simp [List.dropWhile_cons, hpa]

theorem lstripWS_idem (l : List Char) : lstripWS (lstripWS l) = lstripWS l :=
  dropWhile_idem pyIsSpace l

theorem rstripWS_idem (l : List Char) : rstripWS (rstripWS l) = rstripWS l := by
  simp [rstripWS, List.reverse_reverse, dropWhile_idem]

theorem dropWhile_eq_drop (p : α → Bool) (m : List α) :
    ∃ j, m.dropWhile p = m.drop j := by
  induction m with
  | nil => exact ⟨0, rfl⟩
  | cons a t ih =>
    cases hpa : p a with
    | true =>
      obtain ⟨j, hj⟩ := ih
      exact ⟨j + 1, by simp [List.dropWhile_cons, hpa, hj]⟩
    | false => exact ⟨0, by simp [List.dropWhile_cons, hpa]⟩

theorem rstripWS_eq_take (l : List Char) : ∃ k, rstripWS l = l.take k := by
  obtain ⟨j, hj⟩ := dropWhile_eq_drop pyIsSpace l.reverse
  refine ⟨l.length - j, ?_⟩
  simp [rstripWS, hj, List.reverse_drop]

theorem lstripWS_fixed_head {l : List Char} (h : lstripWS l = l) :
    l = [] ∨ ∃ a t, l = a :: t ∧ pyIsSpace a = false := by
  cases l with
  | nil => exact Or.inl rfl
  | cons a t =>
    refine Or.inr ⟨a, t, rfl, ?_⟩
    cases hpa : pyIsSpace a with
    | false => rfl
    | true =>
      exfalso
      unfold lstripWS at h
      rw [List.dropWhile_cons, hpa] at h
      simp at h
      have hle : (t.dropWhile pyIsSpace).length ≤ t.length :=
        (List.dropWhile_sublist pyIsSpace).length_le
      have hlen := congrArg List.length h
      simp at hlen
      omega

theorem lstripWS_rstripWS {l : List Char} (h : lstripWS l = l) :
    lstripWS (rstripWS l) = rstripWS l := by
  rcases lstripWS_fixed_head h with rfl | ⟨a, t, rfl, ha⟩
  · simp [rstripWS, lstripWS]
  · obtain ⟨k, hk⟩ := rstripWS_eq_take (a :: t)
    rw [hk]
    cases k with
    | zero => simp [lstripWS]
    | succ k => simp [List.take_succ_cons, lstripWS, List.dropWhile_cons, ha]

theorem pyStrip_idem (l : List Char) : pyStrip (pyStrip l) = pyStrip l := by
  unfold pyStrip
  rw [lstripWS_rstripWS (lstripWS_idem l), rstripWS_idem]

theorem mem_pyStrip {a : Char} {l : List Char} (h : a ∈ pyStrip l) : a ∈ l := by
  unfold pyStrip rstripWS lstripWS at h
  rw [List.mem_reverse] at h
  have h2 : a ∈ (l.dropWhile pyIsSpace).reverse :=
    (List.dropWhile_sublist pyIsSpace).subset h
  rw [List.mem_reverse] at h2
  exact (List.dropWhile_sublist pyIsSpace).subset h2

theorem length_pyStrip_le (l : List Char) : (pyStrip l).length ≤ l.length := by
  unfold pyStrip rstripWS lstripWS
  have h1 : ((l.dropWhile pyIsSpace).reverse.dropWhile pyIsSpace).length
      ≤ (l.dropWhile pyIsSpace).reverse.length :=
    (List.dropWhile_sublist pyIsSpace).length_le
  have h2 : (l.dropWhile pyIsSpace).length ≤ l.length :=
    (List.dropWhile_sublist pyIsSpace).length_le
  simp at h1
  simp
  omega

theorem length_clean_filename_le (raw : List Char) (N : Nat) :
    (clean_filename raw N).length ≤ N := by
  have h1 := length_pyStrip_le ((raw.filter fun c => !illegalChar c).take N)
  have h2 : ((raw.filter fun c => !illegalChar c).take N).length ≤ N :=
    List.length_take_le N _
  unfold clean_filename
  omega

theorem mem_clean_filename_legal {c : Char} {raw : List Char} {N : Nat}
    (h : c ∈ clean_filename raw N) : illegalChar c = false := by
  have h2 : c ∈ (raw.filter fun c => !illegalChar c) :=
    List.mem_of_mem_take (mem_pyStrip h)
  have := List.of_mem_filter h2
  simpa using this

/-- C8: applying clean_filename to its own output returns the output
unchanged — the sanitizer is idempotent. -/
theorem clean_filename_idempotent :
    ∀ (raw : List Char) (N : Nat),
      clean_filename (clean_filename raw N) N = clean_filename raw N := by
  intro raw N
  have hfilter : (clean_filename raw N).filter (fun c => !illegalChar c) = clean_filename raw N :=
    List.filter_eq_self.mpr fun c hc => by simp [mem_clean_filename_legal hc]
  have htake : (clean_filename raw N).take N = clean_filename raw N :=
    List.take_of_length_le (length_clean_filename_le raw N)
  show pyStrip (((clean_filename raw N).filter fun c => !illegalChar c).take N)
      = clean_filename raw N
  rw [hfilter, htake]
  exact pyStrip_idem _

/-- C4 (counterexample): clean_filename returns the empty string on the
empty input and on an input that is stripped to nothing — there is no
timestamp fallback and the output is not guaranteed non-empty. -/
theorem clean_filename_can_be_empty :
    clean_filename ("***".toList) 128 = [] ∧ clean_filename ([] : List Char) 128 = [] := by
  decide

/-- C4 (amended): the sanitizer output contains none of the characters its
regular expression removes and is at most N code points long; it can,
however, be empty, since the current clean_filename has no timestamp
fallback. -/
theorem clean_filename_legal_and_bounded :
    ∀ (raw : List Char) (N : Nat),
      (∀ c ∈ clean_filename raw N, illegalChar c = false) ∧
      (clean_filename raw N).length ≤ N := by
  intro raw N
  exact ⟨fun _ hc => mem_clean_filename_legal hc, length_clean_filename_le raw N⟩

/-- Closed instance of clean_filename_legal_and_bounded at a concrete
input. -/
theorem clean_filename_legal_and_bounded_witness :
    illegalChar 'a' = false ∧ (clean_filename ("a:b".toList) 5).length ≤ 5 :=
  ⟨(clean_filename_legal_and_bounded ("a:b".toList) 5).1 'a' (by decide),
   (clean_filename_legal_and_bounded ("a:b".toList) 5).2⟩

theorem findUniqueLoop_some_not_ex (ex : String → Bool) (cand : Nat → String) :
    ∀ fuel k p, findUniqueLoop ex cand fuel k = some p → ex p = false := by
  intro fuel
  induction fuel with
  | zero => intro k p h; simp [findUniqueLoop] at h
  | succ fuel ih =>
    intro k p h
    cases hek : ex (cand k) with
    | true =>
      rw [findUniqueLoop, hek] at h
      simp at h
      exact ih _ _ h
    | false =>
      rw [findUniqueLoop, hek] at h
      simp at h
      rw [← h]
      exact hek

theorem findUniqueLoop_reaches (ex : String → Bool) (cand : Nat → String) :
    ∀ fuel k N, k ≤ N → N - k < fuel →
      (∀ j, k ≤ j → j < N → ex (cand j) = true) →
      ex (cand N) = false →
      findUniqueLoop ex cand fuel k = some (cand N) := by
  intro fuel
  induction fuel with
  | zero => intro k N _ h2 _ _; omega
  | succ fuel ih =>
    intro k N hkN hfuel hall hN
    by_cases hk : k = N
    · subst hk
      rw [findUniqueLoop, hN]
      simp
    · have hklt : k < N := lt_of_le_of_ne hkN hk
      have hek : ex (cand k) = true := hall k le_rfl hklt
      rw [findUniqueLoop, hek]
      simp
      exact ih (k + 1) N hklt (by omega) (fun j hj hjN => hall j (by omega) hjN) hN

/-- C6: with base.pdf through base_(N-1).pdf all existing (base.pdf being
candidate 0) and candidate N free, find_unique_pdf_path returns candidate
N, and any returned path fails the existence check at the moment it is
probed.  The existence oracle is consulted afresh on every probe of the
loop. -/
theorem find_unique_pdf_path_monotone :
    ∀ (ex : String → Bool) (directory base : String) (N fuel : Nat),
      (∀ k, k < N → ex (candidatePath directory base k) = true) →
      ex (candidatePath directory base N) = false →
      N < fuel →
      find_unique_pdf_path ex directory base fuel = some (candidatePath directory base N) ∧
      (∀ p, find_unique_pdf_path ex directory base fuel = some p → ex p = false) := by
  intro ex d b N fuel h1 h2 h3
  constructor
  · exact findUniqueLoop_reaches ex (candidatePath d b) fuel 0 N (Nat.zero_le N)
      (by omega) (fun j _ hj => h1 j hj) h2
  · intro p hp
    exact findUniqueLoop_some_not_ex ex (candidatePath d b) fuel 0 p hp

/-- Closed instance of find_unique_pdf_path_monotone: with doc.pdf and
doc_1.pdf taken, the resolver returns doc_2.pdf. -/
theorem find_unique_pdf_path_monotone_witness :
    find_unique_pdf_path exW "d" "doc" 3 = some (candidatePath "d" "doc" 2) :=
  (find_unique_pdf_path_monotone exW "d" "doc" 2 3 (by decide) (by decide) (by decide)).1

/-- C1 (code evaluation at the failing input): in the version 0.5 commit,
a failure injected at the final move — after the temporary was written and
the original was moved aside to the backup name — returns with no file at
the original path; the original content survives only under the backup
name.  This contradicts the claim that the original still exists at its
original path after the failed commit. -/
theorem v05_final_move_failure_loses_original :
    (rename_pdf_based_on_title_commit fsA "in/a.pdf" "in/a.pdf.temp" "in/a.pdf.bak"
      "in/A - Title (2020).pdf" ("Title".toList) ("A".toList) ("2020".toList)
      ⟨false, false, false, true, false⟩).1 "in/a.pdf" = none ∧
    (rename_pdf_based_on_title_commit fsA "in/a.pdf" "in/a.pdf.temp" "in/a.pdf.bak"
      "in/A - Title (2020).pdf" ("Title".toList) ("A".toList) ("2020".toList)
      ⟨false, false, false, true, false⟩).1 "in/a.pdf.bak" = some docA ∧
    (rename_pdf_based_on_title_commit fsA "in/a.pdf" "in/a.pdf.temp" "in/a.pdf.bak"
      "in/A - Title (2020).pdf" ("Title".toList) ("A".toList) ("2020".toList)
      ⟨false, false, false, true, false⟩).2.2 = false := by
  decide

/-- C2 (code evaluation at the failing input): in the version 0.5 commit
with the destination pre-occupied, a failure at the final move returns
without restoring the backup: the original path is empty, the backup file
is left standing, and the function reports the original path as if the
file were still there. -/
theorem v05_failed_move_leaves_backup_unrestored :
    (rename_pdf_based_on_title_commit fsB "lib/b.pdf" "lib/b.pdf.temp" "lib/b.pdf.bak"
      "lib/B - Report (2019).pdf" ("Report".toList) ("B".toList) ("2019".toList)
      ⟨false, false, false, true, false⟩).1 "lib/b.pdf" = none ∧
    (rename_pdf_based_on_title_commit fsB "lib/b.pdf" "lib/b.pdf.temp" "lib/b.pdf.bak"
      "lib/B - Report (2019).pdf" ("Report".toList) ("B".toList) ("2019".toList)
      ⟨false, false, false, true, false⟩).1 "lib/b.pdf.bak" = some docB ∧
    (rename_pdf_based_on_title_commit fsB "lib/b.pdf" "lib/b.pdf.temp" "lib/b.pdf.bak"
      "lib/B - Report (2019).pdf" ("Report".toList) ("B".toList) ("2019".toList)
      ⟨false, false, false, true, false⟩).2.1 = "lib/b.pdf" ∧
    (rename_pdf_based_on_title_commit fsB "lib/b.pdf" "lib/b.pdf.temp" "lib/b.pdf.bak"
      "lib/B - Report (2019).pdf" ("Report".toList) ("B".toList) ("2019".toList)
      ⟨false, false, false, true, false⟩).2.2 = false := by
  decide

/-- C3 (code evaluation at the failing inputs): after an interrupted
commit the one-live-file invariant fails in both implementations.  In the
current update_pdf_metadata, a failure at the replace step leaves the
written temporary dangling next to the untouched original.  In the
version 0.5 commit, a failure at the final move leaves zero files at both
the original and the target location, plus a dangling temporary and the
backup. -/
theorem interrupted_commit_breaks_single_file_invariant :
    (let u := update_pdf_metadata fsC "c.pdf" "c.temp.pdf" ("T".toList) ("A".toList)
        ("2020".toList) ("2025".toList) ⟨false, false, true⟩
     u.1 "c.temp.pdf" = some (rewritten docC ("T".toList) ("A".toList) ("2020".toList) ("2025".toList)) ∧
       u.1 "c.pdf" = some docC ∧ u.2 = false) ∧
    (let r := rename_pdf_based_on_title_commit fsD "d.pdf" "d.pdf.temp" "d.pdf.bak"
        "D - New (2021).pdf" ("New".toList) ("D".toList) ("2021".toList)
        ⟨false, false, false, true, false⟩
     r.1 "d.pdf" = none ∧ r.1 "D - New (2021).pdf" = none ∧
       r.1 "d.pdf.temp" ≠ none ∧ r.1 "d.pdf.bak" = some docD) := by
  constructor
  · decide
  · decide

/-- C9 (counterexample): a purely numeric pubdate is embedded verbatim,
not normalized to four digits: with pubdate 999 the creation date written
by a successful update_pdf_metadata is D:9990101000000Z, which is not of
the claimed four-digit-year form. -/
theorem numeric_pubdate_not_four_digit_normalized :
    pyIsDigit ("999".toList) = true ∧
    (update_pdf_metadata fsC "c.pdf" "c.temp.pdf" ("T".toList) ("A".toList)
        ("999".toList) ("2025".toList) noFail).1 "c.pdf" =
      some { pages := docC.pages,
             meta := some { title := "T".toList, author := "A".toList,
                            creationDate := "D:9990101000000Z".toList } } ∧
    claimedFourDigitCreationDate ("D:9990101000000Z".toList) = false := by
  decide

/-- C9 (amended): on a successful commit the embedded creation date uses
the pubdate verbatim when it is purely numeric, and the current calendar
year otherwise; the record is never rejected for a malformed date. -/
theorem update_pdf_metadata_creation_date :
    ∀ (fs : FS) (src temp : String) (title author pubdate nowYear : List Char) (doc : PdfDoc),
      fs src = some doc →
      (update_pdf_metadata fs src temp title author pubdate nowYear noFail).2 = true ∧
      (update_pdf_metadata fs src temp title author pubdate nowYear noFail).1 src =
        some { pages := doc.pages,
               meta := some { title := title, author := author,
                              creationDate := "D:".toList
                                ++ (if pyIsDigit pubdate then pubdate else nowYear)
                                ++ "0101000000Z".toList } } := by
  intro fs src temp title author pubdate nowYear doc h
  simp [update_pdf_metadata, h, noFail, fsRename, fsWrite, rewritten, creationDateFor]

/-- Closed instance of update_pdf_metadata_creation_date at a concrete
filesystem, with a non-numeric pubdate falling back to the current year. -/
theorem update_pdf_metadata_creation_date_witness :
    (update_pdf_metadata fsD "d.pdf" "d.temp.pdf" ("T".toList) ("A".toList)
        ("March 2020".toList) ("2025".toList) noFail).2 = true ∧
    (update_pdf_metadata fsD "d.pdf" "d.temp.pdf" ("T".toList) ("A".toList)
        ("March 2020".toList) ("2025".toList) noFail).1 "d.pdf" =
      some { pages := docD.pages,
             meta := some { title := "T".toList, author := "A".toList,
                            creationDate := "D:".toList
                              ++ (if pyIsDigit ("March 2020".toList) then "March 2020".toList
                                  else "2025".toList)
                              ++ "0101000000Z".toList } } :=
  update_pdf_metadata_creation_date fsD "d.pdf" "d.temp.pdf" ("T".toList) ("A".toList)
    ("March 2020".toList) ("2025".toList) docD (by decide)

theorem field_check_mkRecord (a t p : List Char) :
    field_reliability_check (mkRecord a t p) =
      if pyLower (pyStrip t) = "unknown".toList then Except.ok none
      else if pyLower (pyStrip a) = "unknown".toList ∨ pyLower (pyStrip a) = "various".toList
        then Except.ok none
      else Except.ok (some (mkRecord a t p)) := by
  have h1 : jsonGet (mkRecord a t p) "title" (Json.str []) = Except.ok (Json.str t) := rfl
  have h2 : jsonGet (mkRecord a t p) "author" (Json.str []) = Except.ok (Json.str a) := rfl
  rw [field_reliability_check, h1, h2]
  rfl

/-- C5: the field reliability check rejects every record whose stripped
title case-insensitively equals unknown, rejects every record whose
stripped author case-insensitively equals unknown or various, and accepts
the record with author IMF, title Global Outlook, pubdate 2020; the two
rejected spec examples evaluate as claimed. -/
theorem validator_rejects_sentinels :
    field_reliability_check (mkRecord ("Various".toList) ("Annual Report".toList) ("2020".toList))
      = Except.ok none ∧
    field_reliability_check (mkRecord ("IMF".toList) ("Unknown".toList) ("2020".toList))
      = Except.ok none ∧
    field_reliability_check (mkRecord ("IMF".toList) ("Global Outlook".toList) ("2020".toList))
      = Except.ok (some (mkRecord ("IMF".toList) ("Global Outlook".toList) ("2020".toList))) ∧
    (∀ a t p, pyLower (pyStrip t) = "unknown".toList →
      field_reliability_check (mkRecord a t p) = Except.ok none) ∧
    (∀ a t p, pyLower (pyStrip a) = "unknown".toList ∨ pyLower (pyStrip a) = "various".toList →
      field_reliability_check (mkRecord a t p) = Except.ok none) := by
  refine ⟨rfl, rfl, rfl, ?_, ?_⟩
  · intro a t p h
    rw [field_check_mkRecord, if_pos h]
  · intro a t p h
    rw [field_check_mkRecord]
    by_cases ht : pyLower (pyStrip t) = "unknown".toList
    · rw [if_pos ht]
    · rw [if_neg ht, if_pos h]

/-- Closed instances of the two universal parts of
validator_rejects_sentinels: a title that is the unknown sentinel with
extra case and whitespace, and an author that is the various sentinel with
extra whitespace, are both rejected. -/
theorem validator_rejects_sentinels_witness :
    field_reliability_check (mkRecord ("X".toList) ("  UNKNOWN  ".toList) ("1999".toList))
      = Except.ok none ∧
    field_reliability_check (mkRecord (" vArIoUs ".toList) ("Report".toList) ("1999".toList))
      = Except.ok none :=
  ⟨validator_rejects_sentinels.2.2.2.1 ("X".toList) ("  UNKNOWN  ".toList) ("1999".toList)
      (by decide),
   validator_rejects_sentinels.2.2.2.2 (" vArIoUs ".toList) ("Report".toList) ("1999".toList)
      (Or.inr (by decide))⟩

theorem check_ok_some_eq {md m : Json}
    (h : field_reliability_check md = Except.ok (some m)) : m = md := by
  rw [field_reliability_check] at h
  cases hT : jsonGet md "title" (Json.str []) with
  | error e => simp [hT] at h
  | ok tJ =>
    simp only [hT] at h
    cases hTs : pyStripLower tJ with
    | error e => simp [hTs] at h
    | ok tv =>
      simp only [hTs] at h
      by_cases htv : tv = "unknown".toList
      · simp [htv] at h
      · simp only [if_neg htv] at h
        cases hA : jsonGet md "author" (Json.str []) with
        | error e => simp [hA] at h
        | ok aJ =>
          simp only [hA] at h
          cases hAs : pyStripLower aJ with
          | error e => simp [hAs] at h
          | ok av =>
            simp only [hAs] at h
            by_cases hav : av = "unknown".toList ∨ av = "various".toList
            · rw [if_pos hav] at h
              simp at h
            · simp only [if_neg hav] at h
              exact (Option.some.inj (Except.ok.inj h)).symm

theorem queryLoop_some (attempts : Nat → Except PyErr Json) :
    ∀ fuel i md, queryLoop attempts i fuel = some md →
      field_reliability_check md = Except.ok (some md) := by
  intro fuel
  induction fuel with
  | zero => intro i md h; simp [queryLoop] at h
  | succ fuel ih =>
    intro i md h
    rw [queryLoop] at h
    cases ha : attempts i with
    | error e => simp only [ha] at h; exact ih _ _ h
    | ok m0 =>
      simp only [ha] at h
      cases hc : field_reliability_check m0 with
      | error e => simp only [hc] at h; exact ih _ _ h
      | ok o =>
        cases o with
        | none => simp only [hc] at h; simp at h
        | some m1 =>
          simp only [hc] at h
          have hmd : m1 = md := by simpa using h
          have hm : m1 = m0 := check_ok_some_eq hc
          rw [← hmd, hm]
          rw [hm] at hc
          exact hc

theorem check_ok_obj {md : Json}
    (h : field_reliability_check md = Except.ok (some md)) :
    ∃ fields, md = Json.obj fields := by
  cases md with
  | obj fields => exact ⟨fields, rfl⟩
  | null => simp [field_reliability_check, jsonGet] at h
  | bool b => simp [field_reliability_check, jsonGet] at h
  | num n => simp [field_reliability_check, jsonGet] at h
  | str s => simp [field_reliability_check, jsonGet] at h
  | arr xs => simp [field_reliability_check, jsonGet] at h

theorem check_ok_field_str {fields : List (String × Json)}
    (h : field_reliability_check (Json.obj fields) = Except.ok (some (Json.obj fields))) :
    (∀ v, lookupField "title" fields = some v → ∃ s, v = Json.str s) ∧
    (∀ v, lookupField "author" fields = some v → ∃ s, v = Json.str s) := by
  rw [field_reliability_check] at h
  simp only [jsonGet] at h
  cases hTs : pyStripLower ((lookupField "title" fields).getD (Json.str [])) with
  | error e => simp only [hTs] at h; simp at h
  | ok tv =>
    simp only [hTs] at h
    by_cases htv : tv = "unknown".toList
    · rw [if_pos htv] at h; simp at h
    · simp only [if_neg htv] at h
      cases hAs : pyStripLower ((lookupField "author" fields).getD (Json.str [])) with
      | error e => simp only [hAs] at h; simp at h
      | ok av =>
        constructor
        · intro v hv
          rw [hv, Option.getD_some] at hTs
          cases v with
          | str s => exact ⟨s, rfl⟩
          | null => simp [pyStripLower] at hTs
          | bool b => simp [pyStripLower] at hTs
          | num n => simp [pyStripLower] at hTs
          | arr xs => simp [pyStripLower] at hTs
          | obj fs2 => simp [pyStripLower] at hTs
        · intro v hv
          rw [hv, Option.getD_some] at hAs
          cases v with
          | str s => exact ⟨s, rfl⟩
          | null => simp [pyStripLower] at hAs
          | bool b => simp [pyStripLower] at hAs
          | num n => simp [pyStripLower] at hAs
          | arr xs => simp [pyStripLower] at hAs
          | obj fs2 => simp [pyStripLower] at hAs

theorem process_pdf_ok (fs : FS) (pdf_path directory temp : String) (env : Env) :
    ∃ r, process_pdf fs pdf_path directory temp env = Except.ok r := by
  rw [process_pdf]
  cases hex : extract_text_from_pdf env.extractPrim with
  | none => exact ⟨_, rfl⟩
  | some text =>
    cases hq : query_llm_for_metadata env.llmAttempts env.retries with
    | none => exact ⟨_, rfl⟩
    | some md =>
      have hcheck : field_reliability_check md = Except.ok (some md) :=
        queryLoop_some env.llmAttempts env.retries 0 md hq
      obtain ⟨fields, rfl⟩ := check_ok_obj hcheck
      obtain ⟨hTitle, hAuthor⟩ := check_ok_field_str hcheck
      have hT : ∃ s, asStr ((lookupField "title" fields).getD (Json.str ("Unknown".toList)))
          = Except.ok s := by
        cases hl : lookupField "title" fields with
        | none => exact ⟨"Unknown".toList, by simp [asStr]⟩
        | some v =>
          obtain ⟨s, rfl⟩ := hTitle v hl
          exact ⟨s, by simp [asStr]⟩
      have hA : ∃ s, asStr ((lookupField "author" fields).getD (Json.str ("Unknown".toList)))
          = Except.ok s := by
        cases hl : lookupField "author" fields with
        | none => exact ⟨"Unknown".toList, by simp [asStr]⟩
        | some v =>
          obtain ⟨s, rfl⟩ := hAuthor v hl
          exact ⟨s, by simp [asStr]⟩
      obtain ⟨tS, htS⟩ := hT
      obtain ⟨aS, haS⟩ := hA
      simp only [jsonGet, htS, haS]
      exact ⟨_, rfl⟩

theorem main_loop_length (envOf : String → Env) (tempOf : String → String) (directory : String) :
    ∀ (docs : List String) (fs : FS),
      ((main_loop envOf tempOf directory fs docs).2).length = docs.length := by
  intro docs
  induction docs with
  | nil => intro fs; rfl
  | cons d rest ih =>
    intro fs
    obtain ⟨r, hr⟩ := process_pdf_ok fs d directory (tempOf d) (envOf d)
    rw [main_loop]
    cases r with
    | mk fs1 o =>
      simp only [hr]
      simp [ih]

/-- C7: for every behaviour of the external collaborators and every
injected failure — extraction failure, inference failure, validation
rejection, malformed field values, metadata-rewrite failure, rename
failure — process_pdf returns an outcome rather than propagating an
exception, and the main loop therefore produces exactly one outcome per
listed document. -/
theorem per_document_failures_never_abort_batch :
    (∀ (fs : FS) (pdf_path directory temp : String) (env : Env),
        ∃ r, process_pdf fs pdf_path directory temp env = Except.ok r) ∧
    (∀ (envOf : String → Env) (tempOf : String → String) (directory : String)
        (docs : List String) (fs : FS),
        ((main_loop envOf tempOf directory fs docs).2).length = docs.length) :=
  ⟨process_pdf_ok,
   fun envOf tempOf directory docs fs => main_loop_length envOf tempOf directory docs fs⟩

theorem query_accepts (aS tS pS : List Char)
    (htv : pyLower (pyStrip tS) ≠ "unknown".toList)
    (hav : ¬(pyLower (pyStrip aS) = "unknown".toList ∨ pyLower (pyStrip aS) = "various".toList)) :
    query_llm_for_metadata (fun _ => Except.ok (mkRecord aS tS pS)) 2
      = some (mkRecord aS tS pS) := by
  have hacc : field_reliability_check (mkRecord aS tS pS)
      = Except.ok (some (mkRecord aS tS pS)) := by
    rw [field_check_mkRecord, if_neg htv, if_neg hav]
  rw [query_llm_for_metadata, show (2 : Nat) = Nat.succ 1 from rfl, queryLoop]
  simp only [hacc]

/-- C10: the success flag of update_pdf_metadata is discarded by
process_pdf and the rename runs unconditionally.  Part one: when the
metadata rewrite fails at the replace step, the document still ends up
renamed to the resolved destination with its embedded metadata unchanged.
Part two: when only the rename fails, the document keeps its original
name but carries the rewritten metadata.  The two effects are decoupled. -/
theorem update_flag_ignored_by_process_pdf :
    (∀ (fs : FS) (pdf_path directory temp : String) (text tS aS pS nowY : List Char)
        (fuel : Nat) (doc : PdfDoc) (dest : String),
      fs pdf_path = some doc →
      temp ≠ pdf_path →
      dest ≠ pdf_path →
      pyLower (pyStrip tS) ≠ "unknown".toList →
      ¬(pyLower (pyStrip aS) = "unknown".toList ∨ pyLower (pyStrip aS) = "various".toList) →
      find_unique_pdf_path
          (fun p => ((fsWrite fs temp
              (rewritten doc (clean_filename tS 128) (clean_filename aS 128) pS nowY)) p).isSome)
          directory (String.mk (clean_filename (base_name_of aS tS pS) 128)) fuel
        = some dest →
      ∃ fs2, process_pdf fs pdf_path directory temp
            ⟨Except.ok (some text), fun _ => Except.ok (mkRecord aS tS pS), 2, nowY,
              ⟨false, false, true⟩, false, fuel⟩
          = Except.ok (fs2, Outcome.committed false (some dest)) ∧
        fs2 dest = some doc ∧ fs2 pdf_path = none) ∧
    (∀ (fs : FS) (pdf_path directory temp : String) (text tS aS pS nowY : List Char)
        (fuel : Nat) (doc : PdfDoc),
      fs pdf_path = some doc →
      pyLower (pyStrip tS) ≠ "unknown".toList →
      ¬(pyLower (pyStrip aS) = "unknown".toList ∨ pyLower (pyStrip aS) = "various".toList) →
      ∃ fs2, process_pdf fs pdf_path directory temp
            ⟨Except.ok (some text), fun _ => Except.ok (mkRecord aS tS pS), 2, nowY,
              noFail, true, fuel⟩
          = Except.ok (fs2, Outcome.committed true none) ∧
        fs2 pdf_path
          = some (rewritten doc (clean_filename tS 128) (clean_filename aS 128) pS nowY)) := by
  constructor
  · intro fs pdf_path directory temp text tS aS pS nowY fuel doc dest
      hdoc htemp hdest htv hav hfind
    have hq := query_accepts aS tS pS htv hav
    simp only [mkRecord] at hq
    refine ⟨fsRename (fsWrite fs temp
        (rewritten doc (clean_filename tS 128) (clean_filename aS 128) pS nowY)) pdf_path dest,
      ?_, ?_, ?_⟩
    · rw [process_pdf]
      simp [extract_text_from_pdf, hq, jsonGet, mkRecord, lookupField, asStr, pyStr,
        update_pdf_metadata_j, update_pdf_metadata, hdoc, rename_pdf, hfind]
    · have h1 : pdf_path ≠ temp := fun h => htemp h.symm
      simp [fsRename, fsWrite, h1, hdoc]
    · have h1 : pdf_path ≠ dest := fun h => hdest h.symm
      simp [fsRename, fsWrite, h1]
  · intro fs pdf_path directory temp text tS aS pS nowY fuel doc hdoc htv hav
    have hq := query_accepts aS tS pS htv hav
    simp only [mkRecord] at hq
    refine ⟨fsRename (fsWrite fs temp
        (rewritten doc (clean_filename tS 128) (clean_filename aS 128) pS nowY)) temp pdf_path,
      ?_, ?_⟩
    · rw [process_pdf]
      cases hf : find_unique_pdf_path
          (fun p => ((fsRename (fsWrite fs temp
              (rewritten doc (clean_filename tS 128) (clean_filename aS 128) pS nowY)) temp
                pdf_path) p).isSome)
          directory (String.mk (clean_filename (base_name_of aS tS pS) 128)) fuel with
      | none =>
        simp [extract_text_from_pdf, hq, jsonGet, mkRecord, lookupField, asStr, pyStr,
          update_pdf_metadata_j, update_pdf_metadata, hdoc, noFail, rename_pdf, hf]
      | some dest =>
        simp [extract_text_from_pdf, hq, jsonGet, mkRecord, lookupField, asStr, pyStr,
          update_pdf_metadata_j, update_pdf_metadata, hdoc, noFail, rename_pdf, hf]
    · simp [fsRename, fsWrite]

/-- Closed instance of update_flag_ignored_by_process_pdf: on a concrete
one-file directory, a failed replace still yields the rename, and a failed
rename still leaves the rewritten metadata behind. -/
theorem update_flag_ignored_by_process_pdf_witness :
    (∃ fs2, process_pdf fsE "dir/e.pdf" "dir" "dir/e.temp.pdf"
          ⟨Except.ok (some "hello".toList),
            fun _ => Except.ok (mkRecord ("Org".toList) ("Doc".toList) ("2020".toList)),
            2, "2025".toList, ⟨false, false, true⟩, false, 2⟩
        = Except.ok (fs2, Outcome.committed false (some "dir/Org - Doc (2020).pdf")) ∧
      fs2 "dir/Org - Doc (2020).pdf" = some docE ∧ fs2 "dir/e.pdf" = none) ∧
    (∃ fs2, process_pdf fsE "dir/e.pdf" "dir" "dir/e.temp.pdf"
          ⟨Except.ok (some "hello".toList),
            fun _ => Except.ok (mkRecord ("Org".toList) ("Doc".toList) ("2020".toList)),
            2, "2025".toList, noFail, true, 2⟩
        = Except.ok (fs2, Outcome.committed true none) ∧
      fs2 "dir/e.pdf" = some (rewritten docE (clean_filename ("Doc".toList) 128)
        (clean_filename ("Org".toList) 128) ("2020".toList) ("2025".toList))) :=
  ⟨update_flag_ignored_by_process_pdf.1 fsE "dir/e.pdf" "dir" "dir/e.temp.pdf" ("hello".toList)
      ("Doc".toList) ("Org".toList) ("2020".toList) ("2025".toList) 2 docE
      "dir/Org - Doc (2020).pdf" (by decide) (by decide) (by decide) (by decide) (by decide)
      (by decide),
   update_flag_ignored_by_process_pdf.2 fsE "dir/e.pdf" "dir" "dir/e.temp.pdf" ("hello".toList)
      ("Doc".toList) ("Org".toList) ("2020".toList) ("2025".toList) 2 docE
      (by decide) (by decide) (by decide)⟩

end OpenAiPdfRenamer
